import Mathlib

/-!
Verification of the `lambda-playground` handlers
(`src/lambda_functions/{api_handler,dynamodb_handler,s3_event_handler}.py`).

The embedding models Python's JSON-compatible values (`Json`), dict
operations, truthiness, attribute errors, and the `json` module
(`dumps`/`loads`) restricted to the value grammar actually exercised by the
handlers (integers, no floats, no inter-token whitespace).  Exceptions are
modelled with `Except PyExn`; each handler is a total function obtained by
wrapping its body in the catch-all boundary present in the source.
-/

set_option maxHeartbeats 1000000

namespace LambdaPlayground

/-- A JSON-compatible Python value: `None`, `bool`, `int`, `str`, `list`,
or `dict` (insertion-ordered association list, as Python dicts are).
Floats are omitted: the handlers never construct one. -/
inductive Json where
  | null : Json
  | bool (b : Bool) : Json
  | num (n : Int) : Json
  | str (s : String) : Json
  | arr (elems : List Json) : Json
  | obj (fields : List (String × Json)) : Json

/-- Modelled Python exceptions raised inside a handler body, carrying the
`str(e)` text used when a catch-all serializes them. -/
inductive PyExn where
  | attrError (msg : String) : PyExn
  | typeError (msg : String) : PyExn
  | jsonDecodeError : PyExn

/-- Model of Python's `str(e)` for a caught exception. The JSON decode
message is fixed to the most common CPython text; only its presence, not its
exact contents, matters to the handlers' contracts. -/
def PyExn.msg : PyExn → String
  | .attrError m => m
  | .typeError m => m
  | .jsonDecodeError => "Expecting value: line 1 column 1 (char 0)"

/-- Python type name of a value, as used in exception messages. -/
def pyTypeName : Json → String
  | .null => "NoneType"
  | .bool _ => "bool"
  | .num _ => "int"
  | .str _ => "str"
  | .arr _ => "list"
  | .obj _ => "dict"

/-- Model of `d.get(k, default)` on an actual Python `dict`:
the stored value if the key is present (even if that value is `None`),
otherwise the default. -/
def jget (l : List (String × Json)) (k : String) (d : Json) : Json :=
  (List.lookup k l).getD d

/-- Model of `d[k] = v` on a Python dict: replace in place if the key is
present, otherwise append (insertion order preserved). -/
def dictSet (l : List (String × Json)) (k : String) (v : Json) : List (String × Json) :=
  match l with
  | [] => [(k, v)]
  | (k', v') :: rest => if k' = k then (k, v) :: rest else (k', v') :: dictSet rest k v

/-- Python truthiness of a JSON-compatible value (`if x:`). -/
def Json.isTruthy : Json → Bool
  | .null => false
  | .bool b => b
  | .num n => n != 0
  | .str s => !s.isEmpty
  | .arr l => !l.isEmpty
  | .obj l => !l.isEmpty

/-- Model of `x.get(k, default)` when `x` is an arbitrary value: only dicts
have a `.get` attribute; anything else raises `AttributeError`. -/
def pyGet (j : Json) (k : String) (d : Json) : Except PyExn Json :=
  match j with
  | .obj l => .ok (jget l k d)
  | _ => .error (.attrError ("'" ++ pyTypeName j ++ "' object has no attribute 'get'"))

/-- Model of `s.upper()` on an arbitrary value: only strings have `.upper`.
Python's `str.upper` on the ASCII operation names used here agrees with
ASCII uppercasing. -/
def pyUpper (j : Json) : Except PyExn String :=
  match j with
  | .str s => .ok (String.mk (s.data.map Char.toUpper))
  | _ => .error (.attrError ("'" ++ pyTypeName j ++ "' object has no attribute 'upper'"))

/-- Substring containment on character lists (Python `sub in s` for
strings). -/
def strContainsSub (sub : List Char) : List Char → Bool
  | [] => sub.isEmpty
  | c :: rest => List.isPrefixOf sub (c :: rest) || strContainsSub sub rest

/-- Model of Python `sub in x` for a string literal `sub`: substring test on
strings, element equality on lists, key membership on dicts, `TypeError`
otherwise. -/
def pyContains (sub : String) (j : Json) : Except PyExn Bool :=
  match j with
  | .str s => .ok (strContainsSub sub.data s.data)
  | .arr l => .ok (l.any fun x => match x with | .str t => t == sub | _ => false)
  | .obj l => .ok (l.any fun p => p.1 == sub)
  | _ => .error (.typeError ("argument of type '" ++ pyTypeName j ++ "' is not iterable"))

/-- Model of `for x in v`: lists yield elements, strings yield one-character
strings, dicts yield keys; other values raise `TypeError`. -/
def pyIter (j : Json) : Except PyExn (List Json) :=
  match j with
  | .arr l => .ok l
  | .str s => .ok (s.data.map fun c => .str (String.mk [c]))
  | .obj l => .ok (l.map fun p => .str p.1)
  | _ => .error (.typeError ("'" ++ pyTypeName j ++ "' object is not iterable"))

/-- Model of `len(v)`. -/
def pyLen (j : Json) : Except PyExn Nat :=
  match j with
  | .arr l => .ok l.length
  | .str s => .ok s.length
  | .obj l => .ok l.length
  | _ => .error (.typeError ("object of type '" ++ pyTypeName j ++ "' has no len()"))

/-- Decimal digit character for `d < 10`. -/
def digitChar (d : Nat) : Char := Char.ofNat (48 + d)

/-- Decimal digits of `n`, most significant first; fueled so that it is
structurally recursive (the fuel `n + 1` always suffices). -/
def natDigitsAux : Nat → Nat → List Char
  | 0, _ => []
  | fuel + 1, n => if n < 10 then [digitChar n] else natDigitsAux fuel (n / 10) ++ [digitChar (n % 10)]

/-- Decimal representation of a natural number. -/
def natDigits (n : Nat) : List Char := natDigitsAux (n + 1) n

/-- Decimal string of a natural number, for f-string interpolation. -/
def natStr (n : Nat) : String := String.mk (natDigits n)

/-- Characters of the decimal representation of an integer (Python `int`
formatting). -/
def intChars (i : Int) : List Char :=
  if i < 0 then '-' :: natDigits i.natAbs else natDigits i.natAbs

/-- Lowercase hexadecimal digit for `d < 16`. -/
def hexDigitChar (d : Nat) : Char :=
  Char.ofNat (if d < 10 then 48 + d else 87 + d)

/-- Four-digit lowercase hex representation of `n < 0x10000`, as in a JSON
`\uXXXX` escape. -/
def hex4 (n : Nat) : List Char :=
  [hexDigitChar (n / 4096 % 16), hexDigitChar (n / 256 % 16),
   hexDigitChar (n / 16 % 16), hexDigitChar (n % 16)]

/-- JSON escaping of one character, following `json.dumps` with its default
`ensure_ascii=True`: quote and backslash escaped, the five C0 controls with
short escapes, printable ASCII literal, everything else `\uXXXX` (a
surrogate pair above the BMP). -/
def escapeChar (c : Char) : List Char :=
  if c = '"' then ['\\', '"']
  else if c = '\\' then ['\\', '\\']
  else if c.toNat = 8 then ['\\', 'b']
  else if c.toNat = 9 then ['\\', 't']
  else if c.toNat = 10 then ['\\', 'n']
  else if c.toNat = 12 then ['\\', 'f']
  else if c.toNat = 13 then ['\\', 'r']
  else if 32 ≤ c.toNat ∧ c.toNat ≤ 126 then [c]
  else if c.toNat < 65536 then '\\' :: 'u' :: hex4 c.toNat
  else '\\' :: 'u' :: hex4 (55296 + (c.toNat - 65536) / 1024) ++
       '\\' :: 'u' :: hex4 (56320 + (c.toNat - 65536) % 1024)

/-- JSON escaping of a character list. -/
def escList (s : List Char) : List Char := s.foldr (fun c acc => escapeChar c ++ acc) []

/-- Serialized JSON string literal, quotes included. -/
def dumpsStrChars (s : String) : List Char := '"' :: escList s.data ++ ['"']

/-- Characters of the `null` keyword. -/
def nullChars : List Char := ['n', 'u', 'l', 'l']

/-- Characters of the `true` keyword. -/
def trueChars : List Char := ['t', 'r', 'u', 'e']

/-- Characters of the `false` keyword. -/
def falseChars : List Char := ['f', 'a', 'l', 's', 'e']

mutual
/-- Characters of the serialized form of a value, modelling `json.dumps`.
Whitespace (the `indent=2` pretty-printing and default separator spaces of
the source) is omitted: `json.loads` skips inter-token whitespace, so it is
immaterial to every statement about parsed content. -/
def dumpsChars : Json → List Char
  | .null => nullChars
  | .bool true => trueChars
  | .bool false => falseChars
  | .num n => intChars n
  | .str s => dumpsStrChars s
  | .arr [] => ['[', ']']
  | .arr (x :: xs) => '[' :: (dumpsChars x ++ dumpsArrRest xs ++ [']'])
  | .obj [] => ['\x7b', '\x7d']
  | .obj (p :: ps) =>
      '\x7b' :: (dumpsStrChars p.1 ++ ':' :: dumpsChars p.2 ++ dumpsObjRest ps ++ ['\x7d'])

/-- Remaining array elements, each preceded by a comma. -/
def dumpsArrRest : List Json → List Char
  | [] => []
  | x :: xs => ',' :: dumpsChars x ++ dumpsArrRest xs

/-- Remaining object fields, each preceded by a comma. -/
def dumpsObjRest : List (String × Json) → List Char
  | [] => []
  | p :: ps => ',' :: dumpsStrChars p.1 ++ ':' :: dumpsChars p.2 ++ dumpsObjRest ps
end

/-- Model of `json.dumps` producing a `String`. -/
def dumps (v : Json) : String := String.mk (dumpsChars v)

mutual
/-- Model of Python `repr` on JSON-compatible values, used by `str()` on
containers (string escaping and quote-switching inside reprs are elided;
no handler contract inspects those characters). -/
def pyReprChars : Json → List Char
  | .null => "None".data
  | .bool true => "True".data
  | .bool false => "False".data
  | .num n => intChars n
  | .str s => '\'' :: s.data ++ ['\'']
  | .arr [] => "[]".data
  | .arr (x :: xs) => '[' :: pyReprChars x ++ pyReprArrRest xs ++ [']']
  | .obj [] => ['\x7b', '\x7d']
  | .obj (p :: ps) =>
      '\x7b' :: ('\'' :: p.1.data ++ '\'' :: ':' :: ' ' :: pyReprChars p.2) ++
      pyReprObjRest ps ++ ['\x7d']

/-- Remaining list elements of a Python repr. -/
def pyReprArrRest : List Json → List Char
  | [] => []
  | x :: xs => ',' :: ' ' :: pyReprChars x ++ pyReprArrRest xs

/-- Remaining dict fields of a Python repr. -/
def pyReprObjRest : List (String × Json) → List Char
  | [] => []
  | p :: ps =>
      ',' :: ' ' :: ('\'' :: p.1.data ++ '\'' :: ':' :: ' ' :: pyReprChars p.2) ++
      pyReprObjRest ps
end

/-- Model of Python `str(x)` as used in f-string interpolation: identity on
strings, `repr`-style text otherwise. -/
def pyStr : Json → String
  | .str s => s
  | j => String.mk (pyReprChars j)

/-- Decimal digit test. -/
def isDigitCh (c : Char) : Bool := 48 ≤ c.toNat && c.toNat ≤ 57

/-- Consume a maximal run of decimal digits, extending the accumulator. -/
def readDigits : List Char → Nat → Nat × List Char
  | [], acc => (acc, [])
  | c :: rest, acc =>
      if isDigitCh c then readDigits rest (acc * 10 + (c.toNat - 48)) else (acc, c :: rest)

/-- Read a natural number (at least one digit, maximal munch). The model
accepts leading zeros that `json.loads` would reject; `dumps` never emits
them, so round-tripping is unaffected. -/
def readNat : List Char → Option (Nat × List Char)
  | [] => none
  | c :: rest => if isDigitCh c then some (readDigits rest (c.toNat - 48)) else none

/-- Hexadecimal digit value. -/
def hexVal (c : Char) : Option Nat :=
  if 48 ≤ c.toNat ∧ c.toNat ≤ 57 then some (c.toNat - 48)
  else if 97 ≤ c.toNat ∧ c.toNat ≤ 102 then some (c.toNat - 87)
  else if 65 ≤ c.toNat ∧ c.toNat ≤ 70 then some (c.toNat - 55)
  else none

/-- Value of four hexadecimal digits. -/
def hex4Val (a b c d : Char) : Option Nat :=
  match hexVal a, hexVal b, hexVal c, hexVal d with
  | some x, some y, some z, some w => some (x * 4096 + y * 256 + z * 16 + w)
  | _, _, _, _ => none

/-- Decode one short escape character. -/
def unescapeSimple (c : Char) : Option Char :=
  if c = '"' then some '"'
  else if c = '\\' then some '\\'
  else if c = '/' then some '/'
  else if c = 'b' then some (Char.ofNat 8)
  else if c = 'f' then some (Char.ofNat 12)
  else if c = 'n' then some (Char.ofNat 10)
  else if c = 'r' then some (Char.ofNat 13)
  else if c = 't' then some (Char.ofNat 9)
  else none

/-- Cons a decoded character onto the string part of a reader result. -/
def consFst (c : Char) (o : Option (List Char × List Char)) :
    Option (List Char × List Char) :=
  match o with
  | some (s, r) => some (c :: s, r)
  | none => none

mutual
/-- Read the body of a JSON string up to its closing quote, decoding
escapes, including surrogate pairs; returns the decoded characters and the
remaining input. -/
def readStrAux : List Char → Option (List Char × List Char)
  | [] => none
  | c :: rest =>
    if c = '"' then some ([], rest)
    else if c = '\\' then readEsc rest
    else consFst c (readStrAux rest)

/-- Read what follows a backslash. -/
def readEsc : List Char → Option (List Char × List Char)
  | [] => none
  | e :: rest2 =>
    if e = 'u' then readUnicodeEsc rest2
    else
      match unescapeSimple e with
      | some ch => consFst ch (readStrAux rest2)
      | none => none

/-- Read the four hex digits of a `\uXXXX` escape (and, for a high
surrogate, the paired low surrogate). -/
def readUnicodeEsc : List Char → Option (List Char × List Char)
  | h1 :: h2 :: h3 :: h4 :: rest3 =>
    match hex4Val h1 h2 h3 h4 with
    | none => none
    | some n =>
      if 55296 ≤ n ∧ n < 56320 then readLowSurrogate n rest3
      else if 56320 ≤ n ∧ n < 57344 then none
      else consFst (Char.ofNat n) (readStrAux rest3)
  | _ => none

/-- After a high surrogate `n`, read the matching `\uXXXX` low surrogate
and combine the pair into one scalar value. -/
def readLowSurrogate (n : Nat) : List Char → Option (List Char × List Char)
  | b1 :: b2 :: g1 :: g2 :: g3 :: g4 :: rest4 =>
    if b1 = '\\' ∧ b2 = 'u' then
      match hex4Val g1 g2 g3 g4 with
      | some m =>
        if 56320 ≤ m ∧ m < 57344 then
          consFst (Char.ofNat (65536 + (n - 55296) * 1024 + (m - 56320))) (readStrAux rest4)
        else none
      | none => none
    else none
  | _ => none
end

/-- Expect a fixed literal continuation (`rue`, `alse`, `ull`) and return
the given value. -/
def expectLit (expected : List Char) (v : Json) (input : List Char) :
    Option (Json × List Char) :=
  match expected, input with
  | [], rest => some (v, rest)
  | e :: es, c :: rest => if c = e then expectLit es v rest else none
  | _ :: _, [] => none

/-- Wrap a decoded string body as a value. -/
def parseStrLit (input : List Char) : Option (Json × List Char) :=
  match readStrAux input with
  | some (s, r) => some (.str (String.mk s), r)
  | none => none

/-- A number after a leading minus sign. -/
def parseNeg (input : List Char) : Option (Json × List Char) :=
  match readNat input with
  | some (n, r) => some (.num (-(n : Int)), r)
  | none => none

/-- A non-negative number. -/
def parseNumLit (input : List Char) : Option (Json × List Char) :=
  match readNat input with
  | some (n, r) => some (.num (n : Int), r)
  | none => none

mutual
/-- Model of the value grammar of `json.loads`, fueled for structural
recursion (callers supply fuel exceeding the input length). Restricted to
the sub-grammar the handlers exercise: integer numbers and no inter-token
whitespace; a string outside this sub-grammar counts as a decode failure.
(The model is also mildly lenient where the restriction cannot matter:
leading zeros and trailing commas are accepted.) -/
def parseVal : Nat → List Char → Option (Json × List Char)
  | 0, _ => none
  | fuel + 1, input =>
    match input with
    | [] => none
    | c :: rest =>
      if c = '\x7b' then
        match parseObjBody fuel rest with
        | some (ps, r) => some (.obj ps, r)
        | none => none
      else if c = '[' then
        match parseArrBody fuel rest with
        | some (xs, r) => some (.arr xs, r)
        | none => none
      else if c = '"' then parseStrLit rest
      else if c = '-' then parseNeg rest
      else if isDigitCh c then parseNumLit (c :: rest)
      else if c = 't' then expectLit ['r', 'u', 'e'] (.bool true) rest
      else if c = 'f' then expectLit ['a', 'l', 's', 'e'] (.bool false) rest
      else if c = 'n' then expectLit ['u', 'l', 'l'] .null rest
      else none

/-- The inside of an array literal, after the opening bracket. -/
def parseArrBody : Nat → List Char → Option (List Json × List Char)
  | 0, _ => none
  | fuel + 1, input =>
    match input with
    | [] => none
    | d :: rest2 =>
      if d = ']' then some ([], rest2)
      else
        match parseVal fuel (d :: rest2) with
        | none => none
        | some (x, r) =>
          match r with
          | [] => none
          | e :: r2 =>
            if e = ']' then some ([x], r2)
            else if e = ',' then
              match parseArrBody fuel r2 with
              | some (xs, r3) => some (x :: xs, r3)
              | none => none
            else none

/-- The inside of an object literal, after the opening brace. -/
def parseObjBody : Nat → List Char → Option (List (String × Json) × List Char)
  | 0, _ => none
  | fuel + 1, input =>
    match input with
    | [] => none
    | q :: rest =>
      if q = '\x7d' then some ([], rest)
      else if q = '"' then
        match readStrAux rest with
        | none => none
        | some (k, r) =>
          match r with
          | [] => none
          | col :: r2 =>
            if col = ':' then
              match parseVal fuel r2 with
              | none => none
              | some (v, r3) =>
                match r3 with
                | [] => none
                | d :: r4 =>
                  if d = '\x7d' then some ([(String.mk k, v)], r4)
                  else if d = ',' then
                    match parseObjBody fuel r4 with
                    | some (ps, r5) => some ((String.mk k, v) :: ps, r5)
                    | none => none
                  else none
            else none
      else none
end

/-- Model of `json.loads`: parse one value consuming the whole input. -/
def parse (s : String) : Option Json :=
  match parseVal (s.length + 1) s.data with
  | some (v, []) => some v
  | _ => none

/-- Model of Python `x == "s"` where `x` may be any value: true exactly for
the equal string (cross-type equality is `False`, never an error). -/
def jeqStr (j : Json) (s : String) : Bool :=
  match j with
  | .str t => t == s
  | _ => false

/-- The response dictionary a handler returns to the invocation runtime.
`headers` defaults to the empty list for the two handlers that return no
`headers` key. -/
structure OutputRecord where
  statusCode : Nat
  headers : List (String × String) := []
  body : String

/-- Model of `context.request_id if context else 'local-test'`; the opaque
context is reduced to its request-identifier accessor. -/
def requestId (ctx : Option String) : String :=
  match ctx with
  | some r => r
  | none => "local-test"

/-- Model of the `json.loads` applied by the PUT branch of the DynamoDB
handler when the payload is a string; a decode failure raises. -/
def loadsIfStr (j : Json) : Except PyExn Json :=
  match j with
  | .str s =>
    match parse s with
    | some v => .ok v
    | none => .error .jsonDecodeError
  | _ => .ok j

namespace DynamoHandler

/-- Value of `os.getenv('DYNAMODB_TABLE_NAME', 'lambda-playground-table')`,
fixed to its default (environment loading is outside the core). -/
def TABLE_NAME : String := "lambda-playground-table"

/-- Capability interface of the `boto3` DynamoDB table: each call either
returns its response dictionary or fails with a `ClientError` whose
`str(e)` text is carried. -/
structure DynamoService where
  getItem : Json → Except String (List (String × Json))
  putItem : Json → Except String (List (String × Json))
  deleteItem : Json → Except String (List (String × Json))
  scan : Except String (List (String × Json))

/-- Operation lookup of `dynamodb_handler.py` line 53, before `.upper()`:
`event.get('operation', event.get('httpMethod', 'GET'))`. -/
def opRaw (event : List (String × Json)) : Json :=
  jget event "operation" (jget event "httpMethod" (.str "GET"))

/-- The 400 response for a missing key (GET/READ and DELETE branches). -/
def keyRequired (opName : String) (event : List (String × Json)) : OutputRecord :=
  { statusCode := 400,
    body := dumps (.obj [("error", .str ("Key is required for " ++ opName ++ " operation")),
                         ("event", .obj event)]) }

/-- The 500 response for a caught `ClientError`. -/
def dynamoError (e : String) : OutputRecord :=
  { statusCode := 500,
    body := dumps (.obj [("error", .str "DynamoDB error"), ("message", .str e)]) }

/-- The 400 response of the final `else` branch. -/
def unsupported (operation : String) : OutputRecord :=
  { statusCode := 400,
    body := dumps (.obj [("error", .str ("Unsupported operation: " ++ operation)),
                         ("supportedOperations",
                          .arr [.str "GET", .str "PUT", .str "DELETE", .str "LIST"])]) }

/-- Body of `lambda_handler` in `dynamodb_handler.py` (the region inside the
outer `try`), translated branch by branch. -/
def lambdaBody (svc : DynamoService) (event : List (String × Json)) :
    Except PyExn OutputRecord :=
  match pyUpper (opRaw event) with
  | .error e => .error e
  | .ok operation =>
    if operation = "GET" ∨ operation = "READ" then
      let key := jget event "key" (.obj [])
      if !key.isTruthy then
        .ok (keyRequired "GET" event)
      else
        match svc.getItem key with
        | .ok response =>
          let item := jget response "Item" .null
          if item.isTruthy then
            .ok { statusCode := 200,
                  body := dumps (.obj [("message", .str "Item retrieved successfully"),
                                       ("item", item)]) }
          else
            .ok { statusCode := 404,
                  body := dumps (.obj [("message", .str "Item not found"), ("key", key)]) }
        | .error e => .ok (dynamoError e)
    else if operation = "PUT" ∨ operation = "CREATE" ∨ operation = "UPDATE" then
      match loadsIfStr (jget event "item" (jget event "body" (.obj []))) with
      | .error e => .error e
      | .ok item =>
        if !item.isTruthy then
          .ok { statusCode := 400,
                body := dumps (.obj [("error", .str "Item data is required for PUT operation"),
                                     ("event", .obj event)]) }
        else
          match svc.putItem item with
          | .ok _ =>
            .ok { statusCode := 200,
                  body := dumps (.obj [("message", .str "Item created/updated successfully"),
                                       ("item", item)]) }
          | .error e => .ok (dynamoError e)
    else if operation = "DELETE" then
      let key := jget event "key" (.obj [])
      if !key.isTruthy then
        .ok (keyRequired "DELETE" event)
      else
        match svc.deleteItem key with
        | .ok _ =>
          .ok { statusCode := 200,
                body := dumps (.obj [("message", .str "Item deleted successfully"),
                                     ("key", key)]) }
        | .error e => .ok (dynamoError e)
    else if operation = "LIST" ∨ operation = "SCAN" then
      match svc.scan with
      | .ok response =>
        let items := jget response "Items" (.arr [])
        match pyLen items with
        | .ok n =>
          .ok { statusCode := 200,
                body := dumps (.obj [("message", .str ("Retrieved " ++ natStr n ++ " item(s)")),
                                     ("count", .num n), ("items", items)]) }
        | .error e => .error e
      | .error e => .ok (dynamoError e)
    else
      .ok (unsupported operation)

/-- The catch-all 500 response of `dynamodb_handler.py` lines 193-201. -/
def internalError (e : PyExn) : OutputRecord :=
  { statusCode := 500,
    body := dumps (.obj [("error", .str "Internal server error"), ("message", .str e.msg),
                         ("tableName", .str TABLE_NAME)]) }

/-- The complete DynamoDB handler: body wrapped in the last-resort
`except Exception` boundary. -/
def lambda_handler (svc : DynamoService) (event : List (String × Json)) : OutputRecord :=
  match lambdaBody svc event with
  | .ok r => r
  | .error e => internalError e

end DynamoHandler

namespace S3Handler

/-- Capability interface of `s3_client.head_object`, returning its response
dictionary or the `str(e)` text of the raised exception. -/
structure S3Service where
  headObject : Json → Json → Except String (List (String × Json))

/-- Body of the per-record `try` in `s3_event_handler.py` lines 53-89. -/
def processRecordExc (svc : S3Service) (record : Json) :
    Except PyExn (List (String × Json)) :=
  match pyGet record "eventName" (.str "") with
  | .error e => .error e
  | .ok event_name =>
  match pyGet record "s3" (.obj []) with
  | .error e => .error e
  | .ok s3_data =>
  match pyGet s3_data "bucket" (.obj []) with
  | .error e => .error e
  | .ok bucketJ =>
  match pyGet bucketJ "name" (.str "") with
  | .error e => .error e
  | .ok bucket_name =>
  match pyGet s3_data "object" (.obj []) with
  | .error e => .error e
  | .ok objJ =>
  match pyGet objJ "key" (.str "") with
  | .error e => .error e
  | .ok object_key =>
  match pyGet objJ "size" (.num 0) with
  | .error e => .error e
  | .ok object_size =>
  let result : List (String × Json) :=
    [("eventName", event_name), ("bucket", bucket_name), ("key", object_key),
     ("size", object_size), ("processed", .bool true)]
  match pyContains "ObjectCreated" event_name with
  | .error e => .error e
  | .ok c₁ =>
  match (if c₁ then Except.ok true else pyContains "Put" event_name) with
  | .error e => .error e
  | .ok isPut =>
  if isPut then
    let result₂ :=
      match svc.headObject bucket_name object_key with
      | .ok response =>
        dictSet (dictSet (dictSet result
          "contentType" (jget response "ContentType" (.str "unknown")))
          "lastModified" (.str (pyStr (jget response "LastModified" (.str "")))))
          "metadata" (jget response "Metadata" (.obj []))
      | .error e => dictSet result "error" (.str ("Failed to get object metadata: " ++ e))
    .ok (dictSet result₂ "message"
          (.str ("Successfully processed S3 object: " ++ pyStr object_key)))
  else
    .ok (dictSet
          (dictSet result "message"
            (.str ("Event " ++ pyStr event_name ++
                   " not processed (only processing PUT events)")))
          "processed" (.bool false))

/-- One loop iteration including the per-record `except` (lines 91-97): a
failure is converted into an error entry and processing continues. -/
def processRecord (svc : S3Service) (record : Json) : List (String × Json) :=
  match processRecordExc svc record with
  | .ok r => r
  | .error e => [("error", .str e.msg), ("record", record), ("processed", .bool false)]

/-- The 400 response for an event without records. -/
def noRecords (event : List (String × Json)) : OutputRecord :=
  { statusCode := 400,
    body := dumps (.obj [("message", .str "No S3 records found in event"),
                         ("event", .obj event)]) }

/-- Body of `lambda_handler` in `s3_event_handler.py` inside the outer
`try`. -/
def lambdaBody (svc : S3Service) (event : List (String × Json)) (ctx : Option String) :
    Except PyExn OutputRecord :=
  let records := jget event "Records" (.arr [])
  if !records.isTruthy then
    .ok (noRecords event)
  else
    match pyIter records with
    | .error e => .error e
    | .ok rs =>
      match pyLen records with
      | .error e => .error e
      | .ok n =>
        .ok { statusCode := 200,
              body := dumps (.obj [("message", .str ("Processed " ++ natStr n ++ " S3 event(s)")),
                                   ("results", .arr (rs.map fun r => .obj (processRecord svc r))),
                                   ("requestId", .str (requestId ctx))]) }

/-- The catch-all 500 response of `s3_event_handler.py` lines 108-117. -/
def failedResponse (e : PyExn) (event : List (String × Json)) : OutputRecord :=
  { statusCode := 500,
    body := dumps (.obj [("error", .str "Failed to process S3 events"),
                         ("message", .str e.msg), ("event", .obj event)]) }

/-- The complete S3 event handler. -/
def lambda_handler (svc : S3Service) (event : List (String × Json))
    (ctx : Option String) : OutputRecord :=
  match lambdaBody svc event ctx with
  | .ok r => r
  | .error e => failedResponse e event

end S3Handler

namespace ApiHandler

/-- The fixed header set of the API handler's success response. -/
def defaultHeaders : List (String × String) :=
  [("Content-Type", "application/json"),
   ("Access-Control-Allow-Origin", "*"),
   ("Access-Control-Allow-Headers", "Content-Type"),
   ("Access-Control-Allow-Methods", "GET,POST,OPTIONS")]

/-- The body-parsing block of `api_handler.py` lines 32-37: a truthy body
is decoded with `json.loads` (falling back to the raw string on a
`JSONDecodeError`); `json.loads` on a truthy non-string raises a
`TypeError` that the block's narrow `except` clause does not catch. -/
def parseBodyField (bodyRaw : Json) : Except PyExn Json :=
  if bodyRaw.isTruthy then
    match bodyRaw with
    | .str s =>
      match parse s with
      | some v => Except.ok v
      | none => Except.ok (Json.str s)
    | _ => Except.error (PyExn.typeError
             ("the JSON object must be str, bytes or bytearray, not " ++
              pyTypeName bodyRaw))
  else Except.ok Json.null

/-- Body of `lambda_handler` in `api_handler.py` inside the outer `try`.
Python evaluates the nested default of line 26 eagerly, so a malformed
`requestContext` raises even when `httpMethod` is present. -/
def lambdaBody (event : List (String × Json)) (ctx : Option String) :
    Except PyExn OutputRecord :=
  match pyGet (jget event "requestContext" (.obj [])) "http" (.obj []) with
  | .error e => .error e
  | .ok httpJ =>
  match pyGet httpJ "method" (.str "GET") with
  | .error e => .error e
  | .ok methodDefault =>
  let http_method := jget event "httpMethod" methodDefault
  let path := jget event "path" (jget event "rawPath" (.str "/"))
  let pp₀ := jget event "pathParameters" .null
  let path_parameters := if pp₀.isTruthy then pp₀ else .obj []
  let qs₀ := jget event "queryStringParameters" .null
  let query_string_parameters := if qs₀.isTruthy then qs₀ else .obj []
  match parseBodyField (jget event "body" .null) with
  | .error e => .error e
  | .ok body =>
  let response_data : List (String × Json) :=
    [("message", .str "Hello from API Gateway Lambda!"),
     ("method", http_method),
     ("path", path),
     ("pathParameters", path_parameters),
     ("queryParameters", query_string_parameters),
     ("body", body),
     ("headers", jget event "headers" (.obj [])),
     ("requestId", .str (requestId ctx))]
  let routed : List (String × Json) × Nat :=
    if jeqStr path "/health" || jeqStr path "/health/" then
      (dictSet response_data "status" (.str "healthy"), 200)
    else if jeqStr http_method "POST" && body.isTruthy then
      (dictSet (dictSet response_data "message" (.str "POST request received successfully"))
        "receivedData" body, 201)
    else if jeqStr http_method "GET" then
      (response_data, 200)
    else
      (response_data, 200)
  .ok { statusCode := routed.2, headers := defaultHeaders, body := dumps (.obj routed.1) }

/-- The catch-all 500 response of `api_handler.py` lines 76-87. -/
def internalError (e : PyExn) : OutputRecord :=
  { statusCode := 500, headers := [("Content-Type", "application/json")],
    body := dumps (.obj [("error", .str "Internal server error"),
                         ("message", .str e.msg)]) }

/-- The complete API Gateway handler. -/
def lambda_handler (event : List (String × Json)) (ctx : Option String) : OutputRecord :=
  match lambdaBody event ctx with
  | .ok r => r
  | .error e => internalError e

end ApiHandler

namespace ResponseEnvelope

/-- Modelled from the spec: the `ResponseEnvelope.build` contract of §4.1,
instantiated by the inline response construction of `api_handler.py` lines
65-74 (fixed default headers, `json.dumps` of the body). -/
def build (statusCode : Nat) (body : Json) : OutputRecord :=
  { statusCode := statusCode, headers := ApiHandler.defaultHeaders, body := dumps body }

end ResponseEnvelope

/-! Round-trip correctness of the serializer/parser pair: `parse (dumps v)`
recovers `v`.  Proved by strong induction over the nested inductive `Json`,
with dedicated lemmas for numbers and escaped strings. -/

/-- Whether the input begins with a decimal digit (the only boundary at
which the maximal-munch number reader could keep consuming). -/
def digitStart : List Char → Bool
  | [] => false
  | c :: _ => isDigitCh c

/-- Strong induction principle for the nested inductive `Json`. -/
theorem Json.indStrong {motive : Json → Prop}
    (hnull : motive .null) (hbool : ∀ b, motive (.bool b))
    (hnum : ∀ n, motive (.num n)) (hstr : ∀ s, motive (.str s))
    (harr : ∀ l, (∀ x ∈ l, motive x) → motive (.arr l))
    (hobj : ∀ l, (∀ p ∈ l, motive p.2) → motive (.obj l)) :
    ∀ j, motive j := fun j =>
  match j with
  | .null => hnull
  | .bool b => hbool b
  | .num n => hnum n
  | .str s => hstr s
  | .arr l => harr l fun x hx => Json.indStrong hnull hbool hnum hstr harr hobj x
  | .obj l => hobj l fun p hp => Json.indStrong hnull hbool hnum hstr harr hobj p.2
termination_by j => sizeOf j
decreasing_by
  · have h := List.sizeOf_lt_of_mem hx
    simp only [Json.arr.sizeOf_spec]
    omega
  · have h := List.sizeOf_lt_of_mem hp
    rcases p with ⟨a, b⟩
    simp only [Json.obj.sizeOf_spec, Prod.mk.sizeOf_spec] at *
    omega

/-- Unpacking `Char.ofNat` at a valid codepoint. -/
theorem toNat_charOfNat (m : Nat) (h : Nat.isValidChar m) : (Char.ofNat m).toNat = m := by
  simp only [Char.ofNat, dif_pos h]
  rfl

/-- Characters are unequal when their codepoints are. -/
theorem char_ne_of_toNat_ne {a b : Char} (h : a.toNat ≠ b.toNat) : a ≠ b :=
  fun he => h (he ▸ rfl)

/-- A scalar value is below the surrogate range or above it. -/
theorem char_toNat_cases (c : Char) :
    c.toNat < 55296 ∨ (57344 ≤ c.toNat ∧ c.toNat < 1114112) := by
  have h := c.valid
  have hv : c.toNat = c.val.toNat := rfl
  rw [UInt32.isValidChar, Nat.isValidChar] at h
  rcases h with h | h
  · left
    omega
  · right
    omega

theorem hexVal_hexDigitChar : ∀ d, d < 16 → hexVal (hexDigitChar d) = some d := by decide

/-- `hex4Val` decodes the four digits emitted by `hex4`. -/
theorem hex4Val_hex4 (n : Nat) (h : n < 65536) :
    hex4Val (hexDigitChar (n / 4096 % 16)) (hexDigitChar (n / 256 % 16))
      (hexDigitChar (n / 16 % 16)) (hexDigitChar (n % 16)) = some n := by
  have h1 := hexVal_hexDigitChar (n / 4096 % 16) (Nat.mod_lt _ (by omega))
  have h2 := hexVal_hexDigitChar (n / 256 % 16) (Nat.mod_lt _ (by omega))
  have h3 := hexVal_hexDigitChar (n / 16 % 16) (Nat.mod_lt _ (by omega))
  have h4 := hexVal_hexDigitChar (n % 16) (Nat.mod_lt _ (by omega))
  simp only [hex4Val, h1, h2, h3, h4]
  congr 1
  omega

theorem toNat_digitChar (d : Nat) (h : d < 10) : (digitChar d).toNat = 48 + d :=
  toNat_charOfNat (48 + d) (Or.inl (by omega))

theorem isDigitCh_digitChar (d : Nat) (h : d < 10) : isDigitCh (digitChar d) = true := by
  simp only [isDigitCh, toNat_digitChar d h, Bool.and_eq_true, decide_eq_true_eq]
  omega

/-- `readDigits` consumes exactly an all-digit prefix when what follows is
not a digit, folding the digits onto the accumulator. -/
theorem readDigits_append : ∀ (ds rest : List Char) (acc : Nat),
    (∀ c ∈ ds, isDigitCh c = true) → digitStart rest = false →
    readDigits (ds ++ rest) acc =
      (List.foldl (fun a c => a * 10 + (c.toNat - 48)) acc ds, rest) := by
  intro ds
  induction ds with
  | nil =>
    intro rest acc _ hr
    cases rest with
    | nil => rfl
    | cons c cs =>
      simp only [digitStart] at hr
      simp [readDigits, hr]
  | cons c cs ih =>
    intro rest acc hd hr
    have hc : isDigitCh c = true := hd c (by simp)
    simp only [List.cons_append, readDigits, hc, if_pos, List.foldl]
    exact ih rest _ (fun x hx => hd x (by simp [hx])) hr

/-- The digit list produced by `natDigitsAux` is nonempty, all digits, and
folds back to the original number. -/
theorem natDigitsAux_spec : ∀ (fuel n : Nat), n < fuel →
    natDigitsAux fuel n ≠ [] ∧ (∀ c ∈ natDigitsAux fuel n, isDigitCh c = true) ∧
    ∀ acc, List.foldl (fun a c => a * 10 + (c.toNat - 48)) acc (natDigitsAux fuel n) =
      acc * 10 ^ (natDigitsAux fuel n).length + n := by
  intro fuel
  induction fuel with
  | zero => intro n h; omega
  | succ f ih =>
    intro n h
    by_cases h10 : n < 10
    · refine ⟨by simp [natDigitsAux, h10], ?_, ?_⟩
      · intro c hc
        simp only [natDigitsAux, if_pos h10, List.mem_singleton] at hc
        exact hc ▸ isDigitCh_digitChar n h10
      · intro acc
        simp only [natDigitsAux, if_pos h10, List.foldl, List.length_singleton,
          toNat_digitChar n h10, pow_one]
        omega
    · have hf : n / 10 < f := by omega
      obtain ⟨hne, hdig, hfold⟩ := ih (n / 10) hf
      have hd9 : n % 10 < 10 := Nat.mod_lt _ (by omega)
      refine ⟨by simp [natDigitsAux, h10], ?_, ?_⟩
      · intro c hc
        simp only [natDigitsAux, if_neg h10, List.mem_append, List.mem_singleton] at hc
        rcases hc with hc | hc
        · exact hdig c hc
        · exact hc ▸ isDigitCh_digitChar _ hd9
      · intro acc
        simp only [natDigitsAux, if_neg h10, List.foldl_append, List.foldl,
          List.length_append, List.length_singleton, hfold acc, toNat_digitChar _ hd9]
        rw [pow_succ]
        have hdm := Nat.div_add_mod n 10
        generalize (10 : Nat) ^ (natDigitsAux f (n / 10)).length = P
        have hma : acc * (P * 10) = acc * P * 10 := by ring
        omega

/-- `readNat` inverts `natDigits` when the remainder does not begin with a
digit. -/
theorem readNat_natDigits (n : Nat) (rest : List Char) (hr : digitStart rest = false) :
    readNat (natDigits n ++ rest) = some (n, rest) := by
  obtain ⟨hne, hdig, hfold⟩ := natDigitsAux_spec (n + 1) n (by omega)
  rw [natDigits] at *
  cases hnd : natDigitsAux (n + 1) n with
  | nil => exact absurd hnd hne
  | cons c ds =>
    rw [hnd] at hdig hfold
    have hc : isDigitCh c = true := hdig c (by simp)
    simp only [List.cons_append, readNat, hc, if_pos]
    rw [readDigits_append ds rest _ (fun x hx => hdig x (by simp [hx])) hr]
    have h0 := hfold 0
    simp only [List.foldl] at h0
    norm_num at h0
    rw [h0]

/-- Reading back one escaped character: `readStrAux` consumes exactly the
escape `escapeChar c` and conses `c` onto whatever the remainder decodes
to. -/
theorem readStrAux_escapeChar (c : Char) (rest : List Char) :
    readStrAux (escapeChar c ++ rest) = consFst c (readStrAux rest) := by
  have hcs := char_toNat_cases c
  have hofn := Char.ofNat_toNat c
  unfold escapeChar
  split_ifs with h1 h2 h3 h4 h5 h6 h7 h8 h9
  · subst h1
    rw [List.cons_append, List.cons_append, List.nil_append, readStrAux,
      if_neg (by decide), if_pos rfl, readEsc, if_neg (by decide)]
    simp [unescapeSimple]
  · subst h2
    rw [List.cons_append, List.cons_append, List.nil_append, readStrAux,
      if_neg (by decide), if_pos rfl, readEsc, if_neg (by decide)]
    simp [unescapeSimple]
  · have hc : c = Char.ofNat 8 := by rw [← h3]; exact hofn.symm
    rw [hc, List.cons_append, List.cons_append, List.nil_append, readStrAux,
      if_neg (by decide), if_pos rfl, readEsc, if_neg (by decide)]
    simp [unescapeSimple]
  · have hc : c = Char.ofNat 9 := by rw [← h4]; exact hofn.symm
    rw [hc, List.cons_append, List.cons_append, List.nil_append, readStrAux,
      if_neg (by decide), if_pos rfl, readEsc, if_neg (by decide)]
    simp [unescapeSimple]
  · have hc : c = Char.ofNat 10 := by rw [← h5]; exact hofn.symm
    rw [hc, List.cons_append, List.cons_append, List.nil_append, readStrAux,
      if_neg (by decide), if_pos rfl, readEsc, if_neg (by decide)]
    simp [unescapeSimple]
  · have hc : c = Char.ofNat 12 := by rw [← h6]; exact hofn.symm
    rw [hc, List.cons_append, List.cons_append, List.nil_append, readStrAux,
      if_neg (by decide), if_pos rfl, readEsc, if_neg (by decide)]
    simp [unescapeSimple]
  · have hc : c = Char.ofNat 13 := by rw [← h7]; exact hofn.symm
    rw [hc, List.cons_append, List.cons_append, List.nil_append, readStrAux,
      if_neg (by decide), if_pos rfl, readEsc, if_neg (by decide)]
    simp [unescapeSimple]
  · rw [List.cons_append, List.nil_append, readStrAux, if_neg h1, if_neg h2]
  · have hns1 : ¬(55296 ≤ c.toNat ∧ c.toNat < 56320) := by omega
    have hns2 : ¬(56320 ≤ c.toNat ∧ c.toNat < 57344) := by omega
    simp only [hex4, List.cons_append, List.nil_append]
    rw [readStrAux, if_neg (by decide), if_pos rfl, readEsc, if_pos rfl, readUnicodeEsc]
    simp [hex4Val_hex4 c.toNat h9, hns1, hns2, hofn]
  · push_neg at h9
    have hup : c.toNat < 1114112 := by omega
    have hd1 : (c.toNat - 65536) / 1024 < 1024 := by omega
    have hm1 : (c.toNat - 65536) % 1024 < 1024 :=
      Nat.mod_lt _ (show 0 < 1024 by omega)
    have hhi1 : 55296 + (c.toNat - 65536) / 1024 < 65536 := by omega
    have hhi2 : 56320 + (c.toNat - 65536) % 1024 < 65536 := by omega
    have e1 := hex4Val_hex4 (55296 + (c.toNat - 65536) / 1024) hhi1
    have e2 := hex4Val_hex4 (56320 + (c.toNat - 65536) % 1024) hhi2
    have hr1 : 55296 ≤ 55296 + (c.toNat - 65536) / 1024 ∧
        55296 + (c.toNat - 65536) / 1024 < 56320 := by omega
    have hr2 : 56320 ≤ 56320 + (c.toNat - 65536) % 1024 ∧
        56320 + (c.toNat - 65536) % 1024 < 57344 := by omega
    simp only [hex4, List.cons_append, List.nil_append, List.append_assoc]
    rw [readStrAux, if_neg (by decide), if_pos rfl, readEsc, if_pos rfl, readUnicodeEsc]
    simp only [e1]
    rw [if_pos hr1]
    rw [readLowSurrogate,
      if_pos (show ('\\' : Char) = '\\' ∧ ('u' : Char) = 'u' from ⟨rfl, rfl⟩)]
    simp only [e2]
    rw [if_pos hr2]
    rw [show 65536 + (55296 + (c.toNat - 65536) / 1024 - 55296) * 1024 +
        (56320 + (c.toNat - 65536) % 1024 - 56320) = c.toNat from by
        have := Nat.div_add_mod (c.toNat - 65536) 1024
        omega, hofn]

/-- `readStrAux` decodes a fully escaped string up to its closing quote. -/
theorem readStrAux_escList (s : List Char) (rest : List Char) :
    readStrAux (escList s ++ '"' :: rest) = some (s, rest) := by
  induction s with
  | nil =>
    have h0 : escList [] = [] := rfl
    rw [h0, List.nil_append, readStrAux, if_pos rfl]
  | cons c cs ih =>
    have hstep : escList (c :: cs) = escapeChar c ++ escList cs := rfl
    rw [hstep, List.append_assoc, readStrAux_escapeChar, ih]
    rfl

/-- A digit character is none of the value-dispatch literals. -/
theorem isDigitCh_ne (c : Char) (hc : isDigitCh c = true) :
    c ≠ '\x7b' ∧ c ≠ '[' ∧ c ≠ '"' ∧ c ≠ '-' := by
  simp only [isDigitCh, Bool.and_eq_true, decide_eq_true_eq] at hc
  have e1 : ('\x7b' : Char).toNat = 123 := rfl
  have e2 : ('[' : Char).toNat = 91 := rfl
  have e3 : ('"' : Char).toNat = 34 := rfl
  have e4 : ('-' : Char).toNat = 45 := rfl
  exact ⟨char_ne_of_toNat_ne (by omega), char_ne_of_toNat_ne (by omega),
    char_ne_of_toNat_ne (by omega), char_ne_of_toNat_ne (by omega)⟩

/-- The serialized form of a value is nonempty and never starts with a
closing bracket (so array-element dispatch takes the element branch). -/
theorem dumpsChars_head (v : Json) :
    ∃ c cs, dumpsChars v = c :: cs ∧ c ≠ ']' := by
  cases v with
  | null => exact ⟨'n', _, rfl, by decide⟩
  | bool b => cases b with
    | true => exact ⟨'t', _, rfl, by decide⟩
    | false => exact ⟨'f', _, rfl, by decide⟩
  | num n =>
    show ∃ c cs, intChars n = c :: cs ∧ c ≠ ']'
    rw [intChars]
    split_ifs with hneg
    · exact ⟨'-', _, rfl, by decide⟩
    · obtain ⟨hne, hdig, -⟩ := natDigitsAux_spec (n.natAbs + 1) n.natAbs (by omega)
      rw [natDigits]
      cases hd : natDigitsAux (n.natAbs + 1) n.natAbs with
      | nil => exact absurd hd hne
      | cons c cs =>
        refine ⟨c, cs, rfl, ?_⟩
        have hcd : isDigitCh c = true := hdig c (by rw [hd]; simp)
        simp only [isDigitCh, Bool.and_eq_true, decide_eq_true_eq] at hcd
        have e5 : (']' : Char).toNat = 93 := rfl
        exact char_ne_of_toNat_ne (by omega)
  | str s => exact ⟨'"', _, rfl, by decide⟩
  | arr l => cases l with
    | nil => exact ⟨'[', _, rfl, by decide⟩
    | cons x xs => exact ⟨'[', _, rfl, by decide⟩
  | obj l => cases l with
    | nil => exact ⟨'\x7b', _, rfl, by decide⟩
    | cons p ps => exact ⟨'\x7b', _, rfl, by decide⟩

/-- The serialized form of a value is nonempty. -/
theorem dumpsChars_length_pos (v : Json) : 0 < (dumpsChars v).length := by
  obtain ⟨c, cs, h, -⟩ := dumpsChars_head v
  rw [h]
  simp

/-- The statement of round-trip correctness for one value: with enough fuel
and a remainder that does not begin with a digit, `parseVal` consumes
exactly the serialized form and returns the value. -/
def ParseValGood (v : Json) : Prop :=
  ∀ fuel rest, (dumpsChars v).length < fuel → digitStart rest = false →
    parseVal fuel (dumpsChars v ++ rest) = some (v, rest)

/-- Round trip through the array-body parser for a nonempty element list. -/
theorem parseArrBody_dumps : ∀ (xs : List Json) (x : Json),
    (∀ y ∈ x :: xs, ParseValGood y) →
    ∀ fuel rest, (dumpsChars x ++ dumpsArrRest xs).length + 1 < fuel →
    parseArrBody fuel (dumpsChars x ++ (dumpsArrRest xs ++ (']' :: rest))) =
      some (x :: xs, rest) := by
  intro xs
  induction xs with
  | nil =>
    intro x hgood fuel rest hf
    cases fuel with
    | zero => simp at hf
    | succ f =>
      obtain ⟨c, cs, hx, hne⟩ := dumpsChars_head x
      have hlen : (dumpsChars x).length < f := by
        simp only [List.length_append] at hf
        omega
      have hv := hgood x (by simp) f (']' :: rest) hlen rfl
      rw [hx, List.cons_append, parseArrBody, if_neg hne, ← List.cons_append, ← hx]
      simp only [dumpsArrRest, List.nil_append] at hv ⊢
      simp [hv]
  | cons y ys ih =>
    intro x hgood fuel rest hf
    cases fuel with
    | zero => simp at hf
    | succ f =>
      obtain ⟨c, cs, hx, hne⟩ := dumpsChars_head x
      have hxpos := dumpsChars_length_pos x
      have hypos := dumpsChars_length_pos y
      have hlen : (dumpsChars x).length < f := by
        simp only [List.length_append, dumpsArrRest, List.length_cons] at hf
        omega
      have hv := hgood x (by simp) f
        (dumpsArrRest (y :: ys) ++ (']' :: rest)) hlen (by
          simp only [dumpsArrRest, List.cons_append]
          rfl)
      rw [hx, List.cons_append, parseArrBody, if_neg hne, ← List.cons_append, ← hx]
      have hrec := ih y (fun z hz => hgood z (by simp at hz ⊢; tauto)) f rest (by
        simp only [List.length_append, dumpsArrRest, List.length_cons,
          List.length_append] at hf ⊢
        omega)
      simp only [dumpsArrRest, List.cons_append, List.append_assoc] at hv hrec ⊢
      simp [hv, hrec]

/-- Round trip through the object-body parser for a nonempty field list. -/
theorem parseObjBody_dumps : ∀ (ps : List (String × Json)) (k : String) (v : Json),
    (∀ q ∈ (k, v) :: ps, ParseValGood q.2) →
    ∀ fuel rest,
    (dumpsStrChars k ++ ':' :: dumpsChars v ++ dumpsObjRest ps).length + 1 < fuel →
    parseObjBody fuel
        (dumpsStrChars k ++ ':' :: dumpsChars v ++ (dumpsObjRest ps ++ ('\x7d' :: rest))) =
      some ((k, v) :: ps, rest) := by
  intro ps
  induction ps with
  | nil =>
    intro k v hgood fuel rest hf
    cases fuel with
    | zero => simp at hf
    | succ f =>
      have hlen : (dumpsChars v).length < f := by
        simp only [List.length_append, dumpsStrChars, List.length_cons] at hf
        omega
      have hv := hgood (k, v) (by simp) f ('\x7d' :: rest) hlen rfl
      simp only [dumpsStrChars, dumpsObjRest, List.cons_append, List.append_assoc,
        List.singleton_append, List.nil_append]
      rw [parseObjBody, if_neg (by decide), if_pos rfl, readStrAux_escList]
      simp [hv]
  | cons p qs ih =>
    intro k v hgood fuel rest hf
    cases fuel with
    | zero => simp at hf
    | succ f =>
      have hvpos := dumpsChars_length_pos v
      have hlen : (dumpsChars v).length < f := by
        simp only [List.length_append, dumpsStrChars, List.length_cons,
          dumpsObjRest] at hf
        omega
      rcases p with ⟨k2, v2⟩
      have hv := hgood (k, v) (by simp) f
        (dumpsObjRest ((k2, v2) :: qs) ++ ('\x7d' :: rest)) hlen (by
          simp only [dumpsObjRest, List.cons_append]
          rfl)
      have hrec := ih k2 v2 (fun z hz => hgood z (by simp at hz ⊢; tauto)) f rest (by
        simp only [dumpsStrChars, List.length_append, List.length_cons,
          dumpsObjRest] at hf ⊢
        omega)
      simp only [dumpsObjRest, dumpsStrChars, List.cons_append, List.append_assoc,
        List.singleton_append, List.nil_append] at hv hrec ⊢
      rw [parseObjBody, if_neg (by decide), if_pos rfl, readStrAux_escList]
      simp [hv, hrec]

/-- Every value round-trips through `parseVal` with sufficient fuel. -/
theorem parseVal_good : ∀ v : Json, ParseValGood v := by
  intro v
  induction v using Json.indStrong with
  | hnull =>
    intro fuel rest hf hr
    cases fuel with
    | zero => simp [dumpsChars] at hf
    | succ f =>
      show parseVal (f + 1) (['n', 'u', 'l', 'l'] ++ rest) = some (.null, rest)
      rw [List.cons_append, parseVal, if_neg (by decide), if_neg (by decide),
        if_neg (by decide), if_neg (by decide), if_neg (by decide), if_neg (by decide),
        if_neg (by decide), if_pos rfl]
      rfl
  | hbool b =>
    intro fuel rest hf hr
    cases b with
    | true =>
      cases fuel with
      | zero => simp [dumpsChars] at hf
      | succ f =>
        show parseVal (f + 1) (['t', 'r', 'u', 'e'] ++ rest) = some (.bool true, rest)
        rw [List.cons_append, parseVal, if_neg (by decide), if_neg (by decide),
          if_neg (by decide), if_neg (by decide), if_neg (by decide), if_pos rfl]
        rfl
    | false =>
      cases fuel with
      | zero => simp [dumpsChars] at hf
      | succ f =>
        show parseVal (f + 1) (['f', 'a', 'l', 's', 'e'] ++ rest) =
          some (.bool false, rest)
        rw [List.cons_append, parseVal, if_neg (by decide), if_neg (by decide),
          if_neg (by decide), if_neg (by decide), if_neg (by decide), if_neg (by decide),
          if_pos rfl]
        rfl
  | hnum n =>
    intro fuel rest hf hr
    cases fuel with
    | zero =>
      have := dumpsChars_length_pos (.num n)
      omega
    | succ f =>
      show parseVal (f + 1) (intChars n ++ rest) = some (.num n, rest)
      rw [intChars]
      split_ifs with hneg
      · rw [List.cons_append, parseVal, if_neg (by decide), if_neg (by decide),
          if_neg (by decide), if_pos rfl, parseNeg]
        simp only [readNat_natDigits _ _ hr]
        have h1 : (-(n.natAbs : Int)) = n := by omega
        rw [h1]
      · obtain ⟨hne, hdig, -⟩ := natDigitsAux_spec (n.natAbs + 1) n.natAbs (by omega)
        cases hd : natDigitsAux (n.natAbs + 1) n.natAbs with
        | nil => exact absurd hd hne
        | cons c cs =>
          have hc : isDigitCh c = true := hdig c (by rw [hd]; simp)
          obtain ⟨ne1, ne2, ne3, ne4⟩ := isDigitCh_ne c hc
          rw [natDigits, hd, List.cons_append, parseVal, if_neg ne1, if_neg ne2,
            if_neg ne3, if_neg ne4, if_pos hc, parseNumLit, ← List.cons_append, ← hd,
            ← natDigits]
          simp only [readNat_natDigits _ _ hr]
          have h1 : ((n.natAbs : Int)) = n := by omega
          rw [h1]
  | hstr s =>
    intro fuel rest hf hr
    cases fuel with
    | zero =>
      have := dumpsChars_length_pos (.str s)
      omega
    | succ f =>
      show parseVal (f + 1) (dumpsStrChars s ++ rest) = some (.str s, rest)
      rw [dumpsStrChars, List.cons_append, List.cons_append, parseVal,
        if_neg (by decide), if_neg (by decide), if_pos rfl, parseStrLit,
        List.append_assoc, List.singleton_append]
      simp only [readStrAux_escList]
  | harr l hmem =>
    cases l with
    | nil =>
      intro fuel rest hf hr
      cases fuel with
      | zero => simp [dumpsChars] at hf
      | succ f =>
        cases f with
        | zero => simp [dumpsChars] at hf
        | succ f2 =>
          show parseVal (f2 + 1 + 1) (['[', ']'] ++ rest) = some (.arr [], rest)
          rw [List.cons_append, parseVal, if_neg (by decide), if_pos rfl,
            List.singleton_append, parseArrBody, if_pos rfl]
    | cons x xs =>
      intro fuel rest hf hr
      have hxpos := dumpsChars_length_pos x
      cases fuel with
      | zero =>
        have := dumpsChars_length_pos (.arr (x :: xs))
        omega
      | succ f =>
        show parseVal (f + 1)
            (('[' :: (dumpsChars x ++ dumpsArrRest xs ++ [']'])) ++ rest) =
          some (.arr (x :: xs), rest)
        rw [List.cons_append, parseVal, if_neg (by decide), if_pos rfl]
        have hfu : (dumpsChars x ++ dumpsArrRest xs).length + 1 < f := by
          have hlen : (dumpsChars (.arr (x :: xs))).length =
              (dumpsChars x ++ dumpsArrRest xs).length + 2 := by
            show ('[' :: (dumpsChars x ++ dumpsArrRest xs ++ [']'])).length = _
            simp
            omega
          omega
        have hb := parseArrBody_dumps xs x hmem f rest hfu
        rw [List.append_assoc, List.append_assoc, List.singleton_append]
        simp only [List.append_assoc] at hb
        simp only [hb]
  | hobj l hmem =>
    cases l with
    | nil =>
      intro fuel rest hf hr
      cases fuel with
      | zero => simp [dumpsChars] at hf
      | succ f =>
        cases f with
        | zero => simp [dumpsChars] at hf
        | succ f2 =>
          show parseVal (f2 + 1 + 1) (['\x7b', '\x7d'] ++ rest) = some (.obj [], rest)
          rw [List.cons_append, parseVal, if_pos rfl, List.singleton_append,
            parseObjBody, if_pos rfl]
    | cons p ps =>
      intro fuel rest hf hr
      rcases p with ⟨k, v⟩
      have hvpos := dumpsChars_length_pos v
      cases fuel with
      | zero =>
        have := dumpsChars_length_pos (.obj ((k, v) :: ps))
        omega
      | succ f =>
        show parseVal (f + 1)
            (('\x7b' :: (dumpsStrChars k ++ ':' :: dumpsChars v ++ dumpsObjRest ps ++
              ['\x7d'])) ++ rest) = some (.obj ((k, v) :: ps), rest)
        rw [List.cons_append, parseVal, if_pos rfl]
        have hfu : (dumpsStrChars k ++ ':' :: dumpsChars v ++ dumpsObjRest ps).length +
            1 < f := by
          have hlen : (dumpsChars (.obj ((k, v) :: ps))).length =
              (dumpsStrChars k ++ ':' :: dumpsChars v ++ dumpsObjRest ps).length + 2 := by
            show ('\x7b' :: (dumpsStrChars k ++ ':' :: dumpsChars v ++ dumpsObjRest ps ++
              ['\x7d'])).length = _
            simp
            omega
          omega
        have hb := parseObjBody_dumps ps k v hmem f rest hfu
        rw [List.append_assoc, List.append_assoc, List.singleton_append]
        simp only [List.append_assoc] at hb ⊢
        simp only [hb]

/-- Round-trip law of the serializer/parser pair modelling `json.dumps` /
`json.loads`. -/
theorem parse_dumps (v : Json) : parse (dumps v) = some v := by
  have hlen : (dumps v).length = (dumpsChars v).length := rfl
  have hdata : (dumps v).data = dumpsChars v := rfl
  have h := parseVal_good v ((dumpsChars v).length + 1) [] (by omega) rfl
  rw [List.append_nil] at h
  rw [parse, hlen, hdata, h]

/-! Helper lemmas and fixture services for the claim theorems. -/

/-- Looking up a key just stored by `dictSet` yields the stored value. -/
theorem lookup_dictSet (l : List (String × Json)) (k : String) (v : Json) :
    List.lookup k (dictSet l k v) = some v := by
  induction l with
  | nil => simp [dictSet, List.lookup]
  | cons p rest ih =>
    rcases p with ⟨k', v'⟩
    by_cases h : k' = k
    · subst h
      simp [dictSet, List.lookup]
    · have hbeq : (k == k') = false := beq_eq_false_iff_ne.mpr (Ne.symm h)
      simp only [dictSet, if_neg h, List.lookup, hbeq, ih]

/-- A DynamoDB service fixture whose calls all succeed with empty
responses. -/
def svcOk : DynamoHandler.DynamoService :=
  { getItem := fun _ => .ok [], putItem := fun _ => .ok [],
    deleteItem := fun _ => .ok [], scan := .ok [] }

/-- An S3 service fixture whose metadata lookup always fails. -/
def s3Fail : S3Handler.S3Service := { headObject := fun _ _ => .error "boom" }

/-- Under a READ/DELETE operation with a falsy key, the body short-circuits
to the 400 `keyRequired` response without consulting the service. -/
theorem dynamo_missing_key (svc : DynamoHandler.DynamoService)
    (event : List (String × Json)) (op : String)
    (hop : pyUpper (DynamoHandler.opRaw event) = .ok op)
    (hopin : op = "GET" ∨ op = "READ" ∨ op = "DELETE")
    (hkey : (jget event "key" (.obj [])).isTruthy = false) :
    DynamoHandler.lambdaBody svc event =
      .ok (DynamoHandler.keyRequired (if op = "DELETE" then "DELETE" else "GET") event) := by
  unfold DynamoHandler.lambdaBody
  simp only [hop]
  rcases hopin with h | h | h <;> subst h
  · rw [if_pos (Or.inl rfl)]
    simp [hkey]
  · rw [if_pos (Or.inr rfl)]
    simp [hkey]
  · rw [if_neg (by simp), if_neg (by simp), if_pos rfl]
    simp [hkey]

/-! Claim theorems. -/

/-- C2: for every input record whose key field is absent or empty (falsy),
dispatching a READ (GET) or DELETE operation returns statusCode 400 with an
error body naming the missing key requirement, and no service call is made:
the response is independent of the injected service. -/
theorem c2_missing_key_is_400 (svc : DynamoHandler.DynamoService)
    (event : List (String × Json)) (op : String)
    (hop : pyUpper (DynamoHandler.opRaw event) = .ok op)
    (hopin : op = "GET" ∨ op = "READ" ∨ op = "DELETE")
    (hkey : (jget event "key" (.obj [])).isTruthy = false) :
    (DynamoHandler.lambda_handler svc event).statusCode = 400 ∧
    (DynamoHandler.lambda_handler svc event).body =
      dumps (.obj [("error", .str ("Key is required for " ++
          (if op = "DELETE" then "DELETE" else "GET") ++ " operation")),
        ("event", .obj event)]) ∧
    ∀ svc' : DynamoHandler.DynamoService,
      DynamoHandler.lambda_handler svc' event = DynamoHandler.lambda_handler svc event := by
  have hbody := dynamo_missing_key svc event op hop hopin hkey
  have hh : DynamoHandler.lambda_handler svc event =
      DynamoHandler.keyRequired (if op = "DELETE" then "DELETE" else "GET") event := by
    unfold DynamoHandler.lambda_handler
    simp only [hbody]
  refine ⟨by rw [hh]; rfl, by rw [hh]; rfl, ?_⟩
  intro svc'
  have hbody' := dynamo_missing_key svc' event op hop hopin hkey
  unfold DynamoHandler.lambda_handler
  simp only [hbody, hbody']

/-- C2 witness: a concrete DELETE event without a key yields the 400. -/
theorem c2_missing_key_is_400_witness :
    (DynamoHandler.lambda_handler svcOk [("operation", .str "DELETE")]).statusCode = 400 :=
  (c2_missing_key_is_400 svcOk [("operation", .str "DELETE")] "DELETE" rfl
    (Or.inr (Or.inr rfl)) rfl).1

/-- C5: a WRITE (PUT/CREATE/UPDATE) dispatch whose payload is a string that
fails structured decoding raises out of the branch and is caught by the
catch-all boundary: the response is the generic 500 carrying the decode
error message — not a 400 — so the failure is not silently dropped. -/
theorem c5_write_decode_failure_is_500 (svc : DynamoHandler.DynamoService)
    (event : List (String × Json)) (op : String) (s : String)
    (hop : pyUpper (DynamoHandler.opRaw event) = .ok op)
    (hopin : op = "PUT" ∨ op = "CREATE" ∨ op = "UPDATE")
    (hitem : jget event "item" (jget event "body" (.obj [])) = .str s)
    (hparse : parse s = none) :
    DynamoHandler.lambda_handler svc event =
      DynamoHandler.internalError .jsonDecodeError ∧
    (DynamoHandler.lambda_handler svc event).statusCode = 500 ∧
    (DynamoHandler.lambda_handler svc event).statusCode ≠ 400 := by
  have hbody : DynamoHandler.lambdaBody svc event = .error .jsonDecodeError := by
    unfold DynamoHandler.lambdaBody
    simp only [hop]
    rcases hopin with h | h | h <;> subst h <;>
      rw [if_neg (by simp), if_pos (by simp)] <;>
      simp only [hitem, loadsIfStr, hparse]
  have hh : DynamoHandler.lambda_handler svc event =
      DynamoHandler.internalError .jsonDecodeError := by
    unfold DynamoHandler.lambda_handler
    simp only [hbody]
  exact ⟨hh, by rw [hh]; rfl, by rw [hh]; simp [DynamoHandler.internalError]⟩

/-- C5 witness: a concrete PUT whose item string is not decodable. -/
theorem c5_write_decode_failure_is_500_witness :
    (DynamoHandler.lambda_handler svcOk
      [("operation", .str "PUT"), ("item", .str "not json")]).statusCode = 500 :=
  (c5_write_decode_failure_is_500 svcOk
    [("operation", .str "PUT"), ("item", .str "not json")] "PUT" "not json" rfl
    (Or.inl rfl) rfl rfl).2.1

/-- C6 counterexample: at the scenario input (method POST via its
`httpMethod` field, a body, no operation field) the handler's 400 body
reads `Unsupported operation: POST` — the raw uppercased operation — not
`Unsupported operation: UNKNOWN` as the claim states. -/
theorem c6_counterexample :
    (DynamoHandler.lambda_handler svcOk
        [("httpMethod", .str "POST"), ("body", .str "\x7b\"x\":1\x7d")]).body =
      dumps (.obj [("error", .str "Unsupported operation: POST"),
        ("supportedOperations",
         .arr [.str "GET", .str "PUT", .str "DELETE", .str "LIST"])]) ∧
    dumps (.obj [("error", .str "Unsupported operation: POST"),
        ("supportedOperations",
         .arr [.str "GET", .str "PUT", .str "DELETE", .str "LIST"])]) ≠
      dumps (.obj [("error", .str "Unsupported operation: UNKNOWN"),
        ("supportedOperations",
         .arr [.str "GET", .str "PUT", .str "DELETE", .str "LIST"])]) := by
  constructor
  · rfl
  · intro h
    have h1 := parse_dumps (.obj [("error", .str "Unsupported operation: POST"),
      ("supportedOperations",
       .arr [.str "GET", .str "PUT", .str "DELETE", .str "LIST"])])
    rw [h, parse_dumps] at h1
    simp only [Option.some.injEq, Json.obj.injEq, List.cons.injEq, Prod.mk.injEq,
      Json.str.injEq] at h1
    exact absurd h1.1.2 (by decide)

/-- C6 amended: with no explicit operation field, `httpMethod` POST and a
body present, classification falls to the unsupported branch with the raw
operation `POST` echoed: dispatch returns 400 with the message
`Unsupported operation: POST` and the enumerated supported operations
(there is no UNKNOWN canonical tag in the code). -/
theorem c6_amended_unsupported_post (svc : DynamoHandler.DynamoService)
    (event : List (String × Json))
    (hnoop : List.lookup "operation" event = none)
    (hmethod : List.lookup "httpMethod" event = some (.str "POST"))
    (hbody : (jget event "body" .null).isTruthy = true) :
    DynamoHandler.lambda_handler svc event = DynamoHandler.unsupported "POST" ∧
    DynamoHandler.unsupported "POST" =
      { statusCode := 400,
        body := dumps (.obj [("error", .str "Unsupported operation: POST"),
          ("supportedOperations",
           .arr [.str "GET", .str "PUT", .str "DELETE", .str "LIST"])]) } := by
  have hop : pyUpper (DynamoHandler.opRaw event) = .ok "POST" := by
    unfold DynamoHandler.opRaw
    unfold jget
    rw [hnoop, hmethod]
    rfl
  have hbodyr : DynamoHandler.lambdaBody svc event = .ok (DynamoHandler.unsupported "POST") := by
    unfold DynamoHandler.lambdaBody
    simp only [hop]
    rw [if_neg (by simp), if_neg (by simp), if_neg (by simp), if_neg (by simp)]
  refine ⟨?_, rfl⟩
  unfold DynamoHandler.lambda_handler
  simp only [hbodyr]

/-- C6 witness: the amended claim at the concrete scenario input. -/
theorem c6_amended_unsupported_post_witness :
    DynamoHandler.lambda_handler svcOk
        [("httpMethod", .str "POST"), ("body", .str "\x7b\"x\":1\x7d")] =
      DynamoHandler.unsupported "POST" :=
  (c6_amended_unsupported_post svcOk
    [("httpMethod", .str "POST"), ("body", .str "\x7b\"x\":1\x7d")] rfl rfl rfl).1

/-- C7: a LIST dispatch whose scan succeeds with an empty item sequence
returns statusCode 200 with count 0 and an empty items list — never 404. -/
theorem c7_list_empty_is_200 (svc : DynamoHandler.DynamoService)
    (event : List (String × Json)) (op : String) (resp : List (String × Json))
    (hop : pyUpper (DynamoHandler.opRaw event) = .ok op)
    (hopin : op = "LIST" ∨ op = "SCAN")
    (hscan : svc.scan = .ok resp)
    (hitems : jget resp "Items" (.arr []) = .arr []) :
    DynamoHandler.lambda_handler svc event =
      { statusCode := 200,
        body := dumps (.obj [("message", .str "Retrieved 0 item(s)"),
          ("count", .num 0), ("items", .arr [])]) } ∧
    (DynamoHandler.lambda_handler svc event).statusCode ≠ 404 := by
  have hbody : DynamoHandler.lambdaBody svc event =
      .ok { statusCode := 200,
            body := dumps (.obj [("message", .str "Retrieved 0 item(s)"),
              ("count", .num 0), ("items", .arr [])]) } := by
    unfold DynamoHandler.lambdaBody
    simp only [hop]
    rcases hopin with h | h <;> subst h <;>
      rw [if_neg (by simp), if_neg (by simp), if_neg (by simp), if_pos (by simp)] <;>
      simp only [hscan, hitems, pyLen] <;> rfl
  have hh : DynamoHandler.lambda_handler svc event =
      { statusCode := 200,
        body := dumps (.obj [("message", .str "Retrieved 0 item(s)"),
          ("count", .num 0), ("items", .arr [])]) } := by
    unfold DynamoHandler.lambda_handler
    simp only [hbody]
  exact ⟨hh, by rw [hh]; simp⟩

/-- C7 witness: a concrete LIST against an empty store. -/
theorem c7_list_empty_is_200_witness :
    (DynamoHandler.lambda_handler svcOk [("operation", .str "LIST")]).statusCode ≠ 404 :=
  (c7_list_empty_is_200 svcOk [("operation", .str "LIST")] "LIST" [] rfl
    (Or.inl rfl) rfl rfl).2

/-- C9: round-trip law for response building: serializing any
JSON-compatible mapping into a response body with `build` and parsing the
body string back yields a structurally equal value. -/
theorem c9_build_body_round_trip (fields : List (String × Json)) :
    parse ((ResponseEnvelope.build 200 (.obj fields)).body) = some (.obj fields) :=
  parse_dumps (.obj fields)

/-- Shape of the S3 handler's success response on a nonempty record list. -/
theorem s3_success (svc : S3Handler.S3Service) (event : List (String × Json))
    (ctx : Option String) (rs : List Json)
    (h : jget event "Records" (.arr []) = .arr rs) (hne : rs ≠ []) :
    S3Handler.lambda_handler svc event ctx =
      { statusCode := 200,
        body := dumps (.obj [("message",
            .str ("Processed " ++ natStr rs.length ++ " S3 event(s)")),
          ("results", .arr (rs.map fun r => .obj (S3Handler.processRecord svc r))),
          ("requestId", .str (requestId ctx))]) } := by
  have htr : (Json.arr rs).isTruthy = true := by
    simp [Json.isTruthy, hne]
  have hbody : S3Handler.lambdaBody svc event ctx =
      .ok { statusCode := 200,
            body := dumps (.obj [("message",
                .str ("Processed " ++ natStr rs.length ++ " S3 event(s)")),
              ("results", .arr (rs.map fun r => .obj (S3Handler.processRecord svc r))),
              ("requestId", .str (requestId ctx))]) } := by
    unfold S3Handler.lambdaBody
    rw [h]
    simp [htr, pyIter, pyLen]
  unfold S3Handler.lambda_handler
  simp only [hbody]

/-- C4: an empty records sequence yields the 400 no-records response; on a
nonempty sequence the handler returns 200 even when per-record processing
raises for some records: each failing record contributes a result entry
with `processed = false` and the error captured, and the result sequence
still covers every record (one failure never aborts the batch). -/
theorem c4_batch_partial_failure (svc : S3Handler.S3Service)
    (event : List (String × Json)) (ctx : Option String) :
    (jget event "Records" (.arr []) = .arr [] →
      S3Handler.lambda_handler svc event ctx = S3Handler.noRecords event ∧
      (S3Handler.lambda_handler svc event ctx).statusCode = 400) ∧
    (∀ rs : List Json, jget event "Records" (.arr []) = .arr rs → rs ≠ [] →
      (S3Handler.lambda_handler svc event ctx).statusCode = 200 ∧
      (S3Handler.lambda_handler svc event ctx).body =
        dumps (.obj [("message",
            .str ("Processed " ++ natStr rs.length ++ " S3 event(s)")),
          ("results", .arr (rs.map fun r => .obj (S3Handler.processRecord svc r))),
          ("requestId", .str (requestId ctx))]) ∧
      ∀ r ∈ rs, ∀ e, S3Handler.processRecordExc svc r = .error e →
        List.lookup "processed" (S3Handler.processRecord svc r) = some (.bool false) ∧
        List.lookup "error" (S3Handler.processRecord svc r) = some (.str e.msg)) := by
  constructor
  · intro h
    have hbody : S3Handler.lambdaBody svc event ctx = .ok (S3Handler.noRecords event) := by
      unfold S3Handler.lambdaBody
      rw [h]
      simp [Json.isTruthy]
    have hh : S3Handler.lambda_handler svc event ctx = S3Handler.noRecords event := by
      unfold S3Handler.lambda_handler
      simp only [hbody]
    exact ⟨hh, by rw [hh]; rfl⟩
  · intro rs h hne
    refine ⟨by rw [s3_success svc event ctx rs h hne],
      by rw [s3_success svc event ctx rs h hne], ?_⟩
    intro r _ e he
    have hpr : S3Handler.processRecord svc r =
        [("error", .str e.msg), ("record", r), ("processed", .bool false)] := by
      unfold S3Handler.processRecord
      simp only [he]
    rw [hpr]
    constructor <;> simp [List.lookup]

/-- C4 witness: an empty batch and a one-record batch whose record raises
(a non-dict record triggers an `AttributeError` inside the loop). -/
theorem c4_batch_partial_failure_witness :
    S3Handler.lambda_handler s3Fail [("Records", .arr [])] none =
      S3Handler.noRecords [("Records", .arr [])] ∧
    List.lookup "processed" (S3Handler.processRecord s3Fail (.num 5)) =
      some (.bool false) := by
  constructor
  · exact ((c4_batch_partial_failure s3Fail [("Records", .arr [])] none).1 rfl).1
  · exact (((c4_batch_partial_failure s3Fail [("Records", .arr [.num 5])] none).2
      [.num 5] rfl (List.cons_ne_nil _ _)).2.2 (.num 5) (by simp)
      (PyExn.attrError "'int' object has no attribute 'get'") rfl).1

/-- C10: for every nonempty records sequence, the 200 response's result
sequence has exactly one entry per input record, in input order: it is the
map of per-record processing over the records, so its length equals the
number of records. -/
theorem c10_one_result_per_record (svc : S3Handler.S3Service)
    (event : List (String × Json)) (ctx : Option String) (rs : List Json)
    (h : jget event "Records" (.arr []) = .arr rs) (hne : rs ≠ []) :
    (S3Handler.lambda_handler svc event ctx).statusCode = 200 ∧
    (S3Handler.lambda_handler svc event ctx).body =
      dumps (.obj [("message",
          .str ("Processed " ++ natStr rs.length ++ " S3 event(s)")),
        ("results", .arr (rs.map fun r => .obj (S3Handler.processRecord svc r))),
        ("requestId", .str (requestId ctx))]) ∧
    (rs.map fun r => Json.obj (S3Handler.processRecord svc r)).length = rs.length := by
  refine ⟨by rw [s3_success svc event ctx rs h hne],
    by rw [s3_success svc event ctx rs h hne], by simp⟩

/-- C10 witness: a concrete two-record batch. -/
theorem c10_one_result_per_record_witness :
    ((([Json.num 1, Json.num 2]).map
      fun r => Json.obj (S3Handler.processRecord s3Fail r)).length = 2) :=
  (c10_one_result_per_record s3Fail [("Records", .arr [.num 1, .num 2])] none
    [.num 1, .num 2] rfl (List.cons_ne_nil _ _)).2.2

/-- C8: for a well-formed record whose event name carries a created/put
marker, a failing metadata lookup is recorded in an `error` field while
`processed` stays `true`; for a record without the marker, the result has
`processed = false` with the not-processed message as the normal outcome. -/
theorem c8_enrichment_error_keeps_processed (svc : S3Handler.S3Service)
    (m ms mb mo : List (String × Json)) (en : String) (err : String)
    (hen : jget m "eventName" (.str "") = .str en)
    (hs3 : jget m "s3" (.obj []) = .obj ms)
    (hbkt : jget ms "bucket" (.obj []) = .obj mb)
    (hobj : jget ms "object" (.obj []) = .obj mo) :
    ((strContainsSub "ObjectCreated".data en.data = true ∨
      strContainsSub "Put".data en.data = true) →
     svc.headObject (jget mb "name" (.str "")) (jget mo "key" (.str "")) = .error err →
     List.lookup "processed" (S3Handler.processRecord svc (.obj m)) =
       some (.bool true) ∧
     List.lookup "error" (S3Handler.processRecord svc (.obj m)) =
       some (.str ("Failed to get object metadata: " ++ err))) ∧
    (strContainsSub "ObjectCreated".data en.data = false →
     strContainsSub "Put".data en.data = false →
     List.lookup "processed" (S3Handler.processRecord svc (.obj m)) =
       some (.bool false) ∧
     List.lookup "message" (S3Handler.processRecord svc (.obj m)) =
       some (.str ("Event " ++ en ++ " not processed (only processing PUT events)"))) := by
  constructor
  · intro hmark hfail
    have hexc : S3Handler.processRecordExc svc (.obj m) =
        .ok (dictSet (dictSet
          [("eventName", .str en), ("bucket", jget mb "name" (.str "")),
           ("key", jget mo "key" (.str "")), ("size", jget mo "size" (.num 0)),
           ("processed", .bool true)]
          "error" (.str ("Failed to get object metadata: " ++ err)))
          "message" (.str ("Successfully processed S3 object: " ++
            pyStr (jget mo "key" (.str ""))))) := by
      unfold S3Handler.processRecordExc
      simp only [pyGet, hen, hs3, hbkt, hobj, pyContains]
      rcases hmark with hm | hm
      · simp [hm, hfail]
      · cases hc1 : strContainsSub "ObjectCreated".data en.data
        · simp [hm, hfail]
        · simp [hfail]
    unfold S3Handler.processRecord
    simp only [hexc]
    constructor <;> simp [dictSet, List.lookup]
  · intro hm1 hm2
    have hexc : S3Handler.processRecordExc svc (.obj m) =
        .ok (dictSet (dictSet
          [("eventName", .str en), ("bucket", jget mb "name" (.str "")),
           ("key", jget mo "key" (.str "")), ("size", jget mo "size" (.num 0)),
           ("processed", .bool true)]
          "message" (.str ("Event " ++ en ++
            " not processed (only processing PUT events)")))
          "processed" (.bool false)) := by
      unfold S3Handler.processRecordExc
      simp only [pyGet, hen, hs3, hbkt, hobj, pyContains, hm1, hm2]
      rfl
    unfold S3Handler.processRecord
    simp only [hexc]
    constructor <;> simp [dictSet, List.lookup]

/-- C8 witness: a created-marker record against a failing metadata service,
and a delete-marker record. -/
theorem c8_enrichment_error_keeps_processed_witness :
    (List.lookup "processed" (S3Handler.processRecord s3Fail
        (.obj [("eventName", .str "ObjectCreated:Put"),
               ("s3", .obj [("bucket", .obj [("name", .str "b")]),
                 ("object", .obj [("key", .str "k"), ("size", .num 1)])])])) =
      some (.bool true)) ∧
    (List.lookup "processed" (S3Handler.processRecord s3Fail
        (.obj [("eventName", .str "ObjectRemoved:Delete"),
               ("s3", .obj [("bucket", .obj [("name", .str "b")]),
                 ("object", .obj [("key", .str "k2"), ("size", .num 1)])])])) =
      some (.bool false)) := by
  constructor
  · exact ((c8_enrichment_error_keeps_processed s3Fail
      [("eventName", .str "ObjectCreated:Put"),
       ("s3", .obj [("bucket", .obj [("name", .str "b")]),
         ("object", .obj [("key", .str "k"), ("size", .num 1)])])]
      [("bucket", .obj [("name", .str "b")]),
       ("object", .obj [("key", .str "k"), ("size", .num 1)])]
      [("name", .str "b")] [("key", .str "k"), ("size", .num 1)]
      "ObjectCreated:Put" "boom" rfl rfl rfl rfl).1 (Or.inl (by decide)) rfl).1
  · exact ((c8_enrichment_error_keeps_processed s3Fail
      [("eventName", .str "ObjectRemoved:Delete"),
       ("s3", .obj [("bucket", .obj [("name", .str "b")]),
         ("object", .obj [("key", .str "k2"), ("size", .num 1)])])]
      [("bucket", .obj [("name", .str "b")]),
       ("object", .obj [("key", .str "k2"), ("size", .num 1)])]
      [("name", .str "b")] [("key", .str "k2"), ("size", .num 1)]
      "ObjectRemoved:Delete" "boom" rfl rfl rfl rfl).2 (by decide) (by decide)).1

/-- Every successful DynamoDB handler body carries one of the branch status
codes. -/
theorem dynamoBody_status (svc : DynamoHandler.DynamoService)
    (event : List (String × Json)) (r : OutputRecord)
    (h : DynamoHandler.lambdaBody svc event = .ok r) :
    r.statusCode = 200 ∨ r.statusCode = 400 ∨ r.statusCode = 404 ∨ r.statusCode = 500 := by
  unfold DynamoHandler.lambdaBody at h
  repeat' (first | (split at h) | (simp only [] at h))
  all_goals first
    | (injection h with h2; subst h2;
       simp [DynamoHandler.keyRequired, DynamoHandler.dynamoError,
         DynamoHandler.unsupported])
    | (subst h;
       simp [DynamoHandler.keyRequired, DynamoHandler.dynamoError,
         DynamoHandler.unsupported])
    | simp at h

/-- Every successful S3 handler body is a 400 or a 200. -/
theorem s3Body_status (svc : S3Handler.S3Service) (event : List (String × Json))
    (ctx : Option String) (r : OutputRecord)
    (h : S3Handler.lambdaBody svc event ctx = .ok r) :
    r.statusCode = 200 ∨ r.statusCode = 400 := by
  unfold S3Handler.lambdaBody at h
  repeat' (first | (split at h) | (simp only [] at h))
  all_goals first
    | (injection h with h2; subst h2; simp [S3Handler.noRecords])
    | (subst h; simp [S3Handler.noRecords])
    | simp at h

/-- Every successful API handler body is a 200 or a 201. -/
theorem apiBody_status (event : List (String × Json)) (ctx : Option String)
    (r : OutputRecord) (h : ApiHandler.lambdaBody event ctx = .ok r) :
    r.statusCode = 200 ∨ r.statusCode = 201 := by
  unfold ApiHandler.lambdaBody at h
  repeat' (first | (split at h) | (simp only [] at h))
  all_goals first
    | (injection h with h2; subst h2; simp)
    | (subst h; simp)
    | simp at h

/-- C1: each handler invocation returns exactly one OutputRecord with a
statusCode from the handler's fixed set, and any failure raised inside the
handler body is caught by the last-resort boundary, which produces the
catch-all 500 response instead of propagating the exception. -/
theorem c1_catch_all_boundary (svc : DynamoHandler.DynamoService)
    (s3svc : S3Handler.S3Service) (ev₁ ev₂ ev₃ : List (String × Json))
    (ctx : Option String) :
    ((∀ e, DynamoHandler.lambdaBody svc ev₁ = .error e →
        DynamoHandler.lambda_handler svc ev₁ = DynamoHandler.internalError e) ∧
      ((DynamoHandler.lambda_handler svc ev₁).statusCode = 200 ∨
       (DynamoHandler.lambda_handler svc ev₁).statusCode = 400 ∨
       (DynamoHandler.lambda_handler svc ev₁).statusCode = 404 ∨
       (DynamoHandler.lambda_handler svc ev₁).statusCode = 500)) ∧
    ((∀ e, S3Handler.lambdaBody s3svc ev₂ ctx = .error e →
        S3Handler.lambda_handler s3svc ev₂ ctx = S3Handler.failedResponse e ev₂) ∧
      ((S3Handler.lambda_handler s3svc ev₂ ctx).statusCode = 200 ∨
       (S3Handler.lambda_handler s3svc ev₂ ctx).statusCode = 400 ∨
       (S3Handler.lambda_handler s3svc ev₂ ctx).statusCode = 500)) ∧
    ((∀ e, ApiHandler.lambdaBody ev₃ ctx = .error e →
        ApiHandler.lambda_handler ev₃ ctx = ApiHandler.internalError e) ∧
      ((ApiHandler.lambda_handler ev₃ ctx).statusCode = 200 ∨
       (ApiHandler.lambda_handler ev₃ ctx).statusCode = 201 ∨
       (ApiHandler.lambda_handler ev₃ ctx).statusCode = 500)) := by
  refine ⟨⟨?_, ?_⟩, ⟨?_, ?_⟩, ⟨?_, ?_⟩⟩
  · intro e he
    unfold DynamoHandler.lambda_handler
    simp only [he]
  · cases hb : DynamoHandler.lambdaBody svc ev₁ with
    | ok r =>
      have hst := dynamoBody_status svc ev₁ r hb
      unfold DynamoHandler.lambda_handler
      simp only [hb]
      exact hst
    | error e =>
      unfold DynamoHandler.lambda_handler
      simp only [hb]
      exact Or.inr (Or.inr (Or.inr rfl))
  · intro e he
    unfold S3Handler.lambda_handler
    simp only [he]
  · cases hb : S3Handler.lambdaBody s3svc ev₂ ctx with
    | ok r =>
      have hst := s3Body_status s3svc ev₂ ctx r hb
      unfold S3Handler.lambda_handler
      simp only [hb]
      tauto
    | error e =>
      unfold S3Handler.lambda_handler
      simp only [hb]
      exact Or.inr (Or.inr rfl)
  · intro e he
    unfold ApiHandler.lambda_handler
    simp only [he]
  · cases hb : ApiHandler.lambdaBody ev₃ ctx with
    | ok r =>
      have hst := apiBody_status ev₃ ctx r hb
      unfold ApiHandler.lambda_handler
      simp only [hb]
      tauto
    | error e =>
      unfold ApiHandler.lambda_handler
      simp only [hb]
      exact Or.inr (Or.inr rfl)

/-- C1 witness: concrete events whose bodies raise (a non-string operation,
a non-iterable records value, a malformed requestContext) all land in the
respective catch-all 500 responses. -/
theorem c1_catch_all_boundary_witness :
    DynamoHandler.lambda_handler svcOk [("operation", .num 5)] =
      DynamoHandler.internalError
        (PyExn.attrError "'int' object has no attribute 'upper'") ∧
    S3Handler.lambda_handler s3Fail [("Records", .num 3)] none =
      S3Handler.failedResponse (PyExn.typeError "'int' object is not iterable")
        [("Records", .num 3)] ∧
    ApiHandler.lambda_handler [("requestContext", .num 7)] none =
      ApiHandler.internalError
        (PyExn.attrError "'int' object has no attribute 'get'") :=
  ⟨(c1_catch_all_boundary svcOk s3Fail [("operation", .num 5)] [("Records", .num 3)]
      [("requestContext", .num 7)] none).1.1 _ rfl,
   (c1_catch_all_boundary svcOk s3Fail [("operation", .num 5)] [("Records", .num 3)]
      [("requestContext", .num 7)] none).2.1.1 _ rfl,
   (c1_catch_all_boundary svcOk s3Fail [("operation", .num 5)] [("Records", .num 3)]
      [("requestContext", .num 7)] none).2.2.1 _ rfl⟩

/-- C3 counterexample: two inputs with method GET and the health path on
which the handler does not return 200: a truthy non-string body (line 35's
`json.loads` raises `TypeError`, which the narrow `except` does not catch)
and a non-mapping `requestContext` (line 26's eagerly evaluated nested
lookup raises `AttributeError`); both land in the catch-all 500. -/
theorem c3_counterexample :
    (ApiHandler.lambda_handler
        [("httpMethod", .str "GET"), ("path", .str "/health"), ("body", .num 3)]
        none).statusCode = 500 ∧
    (ApiHandler.lambda_handler
        [("httpMethod", .str "GET"), ("path", .str "/health"),
         ("requestContext", .num 7)] none).statusCode = 500 :=
  ⟨rfl, rfl⟩

/-- Under the amended well-formedness conditions the body-parsing block
cannot raise. -/
theorem parseBodyField_ok (bodyRaw : Json)
    (h : bodyRaw.isTruthy = false ∨ ∃ s, bodyRaw = .str s) :
    ∃ b, ApiHandler.parseBodyField bodyRaw = .ok b := by
  rcases h with h | ⟨s, h⟩
  · exact ⟨.null, by unfold ApiHandler.parseBodyField; rw [h]; rfl⟩
  · subst h
    unfold ApiHandler.parseBodyField
    cases ht : (Json.str s).isTruthy
    · exact ⟨.null, rfl⟩
    · cases hp : parse s with
      | none => exact ⟨.str s, by simp [hp]⟩
      | some v => exact ⟨v, by simp [hp]⟩

/-- C3 amended: for every input whose path resolves to the health path,
provided the transport-specific fields are well-formed (`requestContext`,
if present, is a mapping whose `http` field is a mapping) and any request
body present is a string or falsy, the handler returns 200 with a
`status: healthy` field appended to the body — regardless of the method or
of any other field, so the health-path rule still takes precedence over
every other routing rule. -/
theorem c3_amended_health_precedence (event : List (String × Json))
    (ctx : Option String)
    (hrc : ∃ rc, jget event "requestContext" (.obj []) = .obj rc ∧
      ∃ ht, jget rc "http" (.obj []) = .obj ht)
    (hbody : (jget event "body" .null).isTruthy = false ∨
      ∃ s, jget event "body" .null = .str s)
    (hpath : jget event "path" (jget event "rawPath" (.str "/")) = .str "/health" ∨
      jget event "path" (jget event "rawPath" (.str "/")) = .str "/health/") :
    (ApiHandler.lambda_handler event ctx).statusCode = 200 ∧
    ∃ data, (ApiHandler.lambda_handler event ctx).body = dumps (.obj data) ∧
      List.lookup "status" data = some (.str "healthy") := by
  obtain ⟨rc, hrc1, ht, hrc2⟩ := hrc
  obtain ⟨b, hb⟩ := parseBodyField_ok _ hbody
  unfold ApiHandler.lambda_handler ApiHandler.lambdaBody
  rw [hrc1]
  simp only [pyGet, hrc2, hb]
  rcases hpath with hp | hp
  · rw [hp, if_pos (show (jeqStr (Json.str "/health") "/health" ||
        jeqStr (Json.str "/health") "/health/") = true from by decide)]
    exact ⟨rfl, _, rfl, lookup_dictSet _ _ _⟩
  · rw [hp, if_pos (show (jeqStr (Json.str "/health/") "/health" ||
        jeqStr (Json.str "/health/") "/health/") = true from by decide)]
    exact ⟨rfl, _, rfl, lookup_dictSet _ _ _⟩

/-- C3 amended witness: a concrete healthy GET with an operation field and
a string body still yields 200 with the healthy status. -/
theorem c3_amended_health_precedence_witness :
    (ApiHandler.lambda_handler
        [("httpMethod", .str "GET"), ("path", .str "/health"),
         ("operation", .str "DELETE"), ("body", .str "ignored")]
        none).statusCode = 200 :=
  (c3_amended_health_precedence
    [("httpMethod", .str "GET"), ("path", .str "/health"),
     ("operation", .str "DELETE"), ("body", .str "ignored")] none
    ⟨[], rfl, [], rfl⟩ (Or.inr ⟨"ignored", rfl⟩) (Or.inl rfl)).1

end LambdaPlayground
